import Mathlib

/-!
Shallow embedding of `src/helix-term/src/ui/fidget.rs` (the helix "fidget"
LSP-progress widget) and verification of its specification.

Modelling conventions:
- `lsp::ProgressToken` (`NumberOrString`) becomes `ProgressToken` with an
  `Int` payload for the numeric variant and `String` for the string variant.
- `Option<T>` becomes `Option`; `u32` percentages become `Nat` (they are
  only ever displayed, never computed with).
- `Vec<Item>` / `Vec<Provider>` become `List`; `Vec::retain` becomes
  `List.filter`, `iter_mut().find` + in-place mutation becomes a structural
  first-match rewrite.
- The mpsc channel becomes an explicit FIFO inbox (`List FidgetMessage`,
  head = oldest); `Sender::send(..).unwrap()` becomes a function whose
  result records whether the call delivered the message or panicked
  (`SendError` + `unwrap` aborts the process).
- `FidgetWidget::render`'s line production (push loops over `active` and
  `state` in reverse) becomes `FidgetWidget.renderLines`.
-/

/-- `lsp::ProgressToken = NumberOrString`: a number (i32) or a string. -/
inductive ProgressToken where
  | number : Int → ProgressToken
  | string : String → ProgressToken
deriving DecidableEq, Repr

/-- The `Display` form used by `format_progress`: the number's decimal
rendering, or the string itself. -/
def ProgressToken.display : ProgressToken → String
  | .number n => toString n
  | .string s => s

/-- `lsp::WorkDoneProgress`: `Begin { title, message, percentage }`,
`Report { message, percentage }`, `End { message }`. -/
inductive WorkDoneProgress where
  | begin_ : String → Option String → Option Nat → WorkDoneProgress
  | report : Option String → Option Nat → WorkDoneProgress
  | end_ : Option String → WorkDoneProgress
deriving DecidableEq, Repr

/-- `helix_lsp::ProgressStatus`: `Created` or `Started(WorkDoneProgress)`. -/
inductive ProgressStatus where
  | created : ProgressStatus
  | started : WorkDoneProgress → ProgressStatus
deriving DecidableEq, Repr

/-- `fn format_progress(token, title, msg, percentage) -> String`
(fidget.rs:231-266): token in square brackets, then the 8-way match on the
presence of title / message / percentage. -/
def format_progress (token : ProgressToken) (title : Option String)
    (msg : Option String) (percentage : Option Nat) : String :=
  match title, msg, percentage with
  | some title, some message, some percentage =>
      "[" ++ token.display ++ "] " ++ toString percentage ++ "% " ++ title ++ " - " ++ message
  | some title, none, some percentage =>
      "[" ++ token.display ++ "] " ++ toString percentage ++ "% " ++ title
  | some title, some message, none =>
      "[" ++ token.display ++ "] " ++ title ++ " - " ++ message
  | none, some message, some percentage =>
      "[" ++ token.display ++ "] " ++ toString percentage ++ "% " ++ message
  | some title, none, none =>
      "[" ++ token.display ++ "] " ++ title
  | none, some message, none =>
      "[" ++ token.display ++ "] " ++ message
  | none, none, some percentage =>
      "[" ++ token.display ++ "] " ++ toString percentage ++ "%"
  | none, none, none =>
      "[" ++ token.display ++ "]"

/-- `struct Item { token, title, line, finished }` (fidget.rs:95-100). -/
structure Item where
  token : ProgressToken
  title : Option String
  line : Option String
  finished : Bool
deriving DecidableEq, Repr

/-- `Item::update` (fidget.rs:102-127): `Begin` sets the title, `End` sets
`finished`; every branch then recomputes `line` via `format_progress` from
the (possibly just-updated) title and the event's message/percentage
(`End` formats with `percentage = None`). -/
def Item.update (item : Item) (progress : WorkDoneProgress) : Item :=
  match progress with
  | .begin_ title message percentage =>
      let item := { item with title := some title }
      { item with line := some (format_progress item.token item.title message percentage) }
  | .report message percentage =>
      { item with line := some (format_progress item.token item.title message percentage) }
  | .end_ message =>
      let item := { item with finished := true }
      { item with line := some (format_progress item.token item.title message none) }

/-- `struct Provider { id, state: Vec<Item> }` (fidget.rs:65-68). -/
structure Provider where
  id : Nat
  state : List Item
deriving DecidableEq, Repr

/-- The `iter_mut().find(|item| item.token == *token)` + in-place
`item.update(progress)` of `Provider::update`'s `Started` arm: rewrite the
first Item whose token matches; if none matches, the list is unchanged
(the source only logs a warning in that case). -/
def updateMatching : List Item → ProgressToken → WorkDoneProgress → List Item
  | [], _, _ => []
  | i :: is, token, wdp =>
      if i.token = token then i.update wdp :: is
      else i :: updateMatching is token wdp

/-- `Provider::update` (fidget.rs:70-93): first `retain` the unfinished
Items, then either push a fresh Item (`Created`) or forward to the first
token-matching Item (`Started`), dropping the event when none matches. -/
def Provider.update (p : Provider) (token : ProgressToken) (progress : ProgressStatus) : Provider :=
  let p := { p with state := p.state.filter (fun item => item.finished == false) }
  match progress with
  | .created =>
      { p with state := p.state ++ [{ token := token, title := none, line := none, finished := false }] }
  | .started wdp =>
      { p with state := updateMatching p.state token wdp }

/-- `struct FidgetMessage { id, token, progress }` (fidget.rs:44-48). -/
structure FidgetMessage where
  id : Nat
  token : ProgressToken
  progress : ProgressStatus
deriving DecidableEq, Repr

/-- `struct FidgetWidget { active: Vec<Provider>, .. }` (fidget.rs:17-23);
the spinner and the receiving end of the channel are modelled outside the
state (the inbox is passed explicitly to `FidgetWidget.update`). -/
structure FidgetWidget where
  active : List Provider
deriving DecidableEq, Repr

/-- The body of `FidgetWidget::update` once a message is received
(fidget.rs:28-39): update the first Provider with matching id in place, or
construct `Provider { id, state: vec![] }`, update it, and push it. -/
def routeMsg : List Provider → FidgetMessage → List Provider
  | [], msg => [Provider.update { id := msg.id, state := [] } msg.token msg.progress]
  | p :: ps, msg =>
      if p.id = msg.id then Provider.update p msg.token msg.progress :: ps
      else p :: routeMsg ps msg

/-- `FidgetWidget::update` (fidget.rs:26-41): `try_recv` at most one
message from the inbox (head = oldest); if the inbox is empty, do nothing.
Returns the new widget state and the remaining inbox. -/
def FidgetWidget.update (w : FidgetWidget) (inbox : List FidgetMessage) :
    FidgetWidget × List FidgetMessage :=
  match inbox with
  | [] => (w, [])
  | msg :: rest => ({ active := routeMsg w.active msg }, rest)

/-- The line production of `FidgetWidget::render` (fidget.rs:190-200): for
each Provider in reverse order push the header `"id: {id}"`, then for each
Item in reverse order push its `line` when present. Mirrors the imperative
double push-loop with an accumulator. -/
def FidgetWidget.renderLines (w : FidgetWidget) : List String :=
  w.active.reverse.foldl
    (fun acc p =>
      (p.state.reverse.foldl
        (fun acc item =>
          match item.line with
          | some line => acc ++ [line]
          | none => acc)
        (acc ++ ["id: " ++ toString p.id])))
    []

/-- Result of a producer-side `Handle` call: either the message was placed
on the channel, or the process panicked (`send(..).unwrap()` on a closed
channel). -/
inductive CallOutcome where
  | sent : FidgetMessage → CallOutcome
  | panicked : CallOutcome
deriving DecidableEq, Repr

/-- `mpsc::Sender::send`: delivers iff the receiving side is still alive,
otherwise returns an error (modelled as `none`). -/
def mpscSend (receiverAlive : Bool) (msg : FidgetMessage) : Option FidgetMessage :=
  if receiverAlive then some msg else none

/-- `Fidget::create` (fidget.rs:130-138): `send(FidgetMessage { id, token,
progress: Created }).unwrap()` — panics when the channel is closed. -/
def Fidget.create (receiverAlive : Bool) (id : Nat) (token : ProgressToken) : CallOutcome :=
  match mpscSend receiverAlive { id := id, token := token, progress := .created } with
  | some m => .sent m
  | none => .panicked

/-- `Fidget::end_progress` (fidget.rs:141-154): sends
`Started(End(last_message))` with `.unwrap()`. -/
def Fidget.end_progress (receiverAlive : Bool) (id : Nat) (token : ProgressToken)
    (last_message : Option String) : CallOutcome :=
  match mpscSend receiverAlive
      { id := id, token := token, progress := .started (.end_ last_message) } with
  | some m => .sent m
  | none => .panicked

/-- `Fidget::update` (fidget.rs:157-165): sends `Started(status)` with
`.unwrap()`. -/
def Fidget.update (receiverAlive : Bool) (id : Nat) (token : ProgressToken)
    (status : WorkDoneProgress) : CallOutcome :=
  match mpscSend receiverAlive { id := id, token := token, progress := .started status } with
  | some m => .sent m
  | none => .panicked

/-- The §4.5 formatting table, written out case by case following the
spec's words (the spec-side definition of the refinement claim about
`format_progress`). -/
def formatTableSpec (token : ProgressToken) (title : Option String)
    (msg : Option String) (percentage : Option Nat) : String :=
  match title, msg, percentage with
  | some t, some m, some pct =>
      "[" ++ token.display ++ "] " ++ toString pct ++ "% " ++ t ++ " - " ++ m
  | some t, none, some pct => "[" ++ token.display ++ "] " ++ toString pct ++ "% " ++ t
  | some t, some m, none => "[" ++ token.display ++ "] " ++ t ++ " - " ++ m
  | none, some m, some pct => "[" ++ token.display ++ "] " ++ toString pct ++ "% " ++ m
  | some t, none, none => "[" ++ token.display ++ "] " ++ t
  | none, some m, none => "[" ++ token.display ++ "] " ++ m
  | none, none, some pct => "[" ++ token.display ++ "] " ++ toString pct ++ "%"
  | none, none, none => "[" ++ token.display ++ "]"

/-- The render order as the spec states it in §4.2: for each Provider in
reverse insertion order, one header line identifying the provider, then,
for each Item in reverse insertion order, the Item's line when present
(the spec-side definition of the refinement claim about
`FidgetWidget.renderLines`). -/
def renderLinesSpec (w : FidgetWidget) : List String :=
  w.active.reverse.flatMap
    (fun p => ("id: " ++ toString p.id) :: p.state.reverse.filterMap (fun item => item.line))

/-- The widget half of `fidget_and_widget` (fidget.rs:50-63): the initial
state has no active Providers. -/
def fidget_and_widget : FidgetWidget := { active := [] }

/-- Processing a whole list of queued messages in order (iterated
`routeMsg`); used to speak about states after any number of drains. -/
def applyMsgs (ps : List Provider) (ms : List FidgetMessage) : List Provider :=
  ms.foldl routeMsg ps

/-- Widget states reachable through the public operations: the freshly
constructed widget of `fidget_and_widget`, and any state reached from a
reachable one by draining one message. -/
inductive Reachable : FidgetWidget → Prop where
  | init : Reachable fidget_and_widget
  | step (w : FidgetWidget) (m : FidgetMessage) :
      Reachable w → Reachable { active := routeMsg w.active m }

/-! ## Helper lemmas -/

/-- `Provider.update` never changes the provider's id. -/
theorem Provider.update_id (p : Provider) (token : ProgressToken) (progress : ProgressStatus) :
    (Provider.update p token progress).id = p.id := by
  cases progress <;> rfl

/-- Filtering out finished Items is idempotent. -/
theorem filter_finished_idem (l : List Item) :
    (l.filter (fun item => item.finished == false)).filter (fun item => item.finished == false)
      = l.filter (fun item => item.finished == false) := by
  induction l with
  | nil => rfl
  | cons i is ih =>
    cases h : i.finished with
    | false => simp [List.filter_cons, h, ih]
    | true => simp [List.filter_cons, h, ih]

/-- When no Item's token matches, `updateMatching` is the identity (the
source logs a warning and returns). -/
theorem updateMatching_no_match (l : List Item) (token : ProgressToken)
    (wdp : WorkDoneProgress) (h : ∀ i ∈ l, i.token ≠ token) :
    updateMatching l token wdp = l := by
  induction l with
  | nil => rfl
  | cons i is ih =>
    simp only [updateMatching]
    rw [if_neg (h i (List.mem_cons_self i is))]
    rw [ih (fun j hj => h j (List.mem_cons_of_mem i hj))]

/-- Every Item in the output of `updateMatching` is either an untouched
input Item or the update of an input Item. -/
theorem mem_updateMatching (l : List Item) (token : ProgressToken)
    (wdp : WorkDoneProgress) (i : Item) (hi : i ∈ updateMatching l token wdp) :
    i ∈ l ∨ ∃ j, j ∈ l ∧ i = j.update wdp := by
  induction l with
  | nil => simp [updateMatching] at hi
  | cons a as ih =>
    simp only [updateMatching] at hi
    by_cases h : a.token = token
    · rw [if_pos h] at hi
      rcases List.mem_cons.mp hi with h1 | h1
      · exact Or.inr ⟨a, List.mem_cons_self a as, h1⟩
      · exact Or.inl (List.mem_cons_of_mem a h1)
    · rw [if_neg h] at hi
      rcases List.mem_cons.mp hi with h1 | h1
      · exact Or.inl (h1 ▸ List.mem_cons_self a as)
      · rcases ih h1 with h2 | ⟨j, hj, hij⟩
        · exact Or.inl (List.mem_cons_of_mem a h2)
        · exact Or.inr ⟨j, List.mem_cons_of_mem a hj, hij⟩

/-- `Item.update` leaves `finished` untouched except for `End`, which sets
it to `true`. -/
theorem Item.update_finished (j : Item) (wdp : WorkDoneProgress)
    (h : (j.update wdp).finished = true) :
    j.finished = true ∨ ∃ m, wdp = .end_ m := by
  cases wdp with
  | begin_ t m pct => exact Or.inl h
  | report m pct => exact Or.inl h
  | end_ m => exact Or.inr ⟨m, rfl⟩

/-- `Item.update` always produces a present `line`. -/
theorem Item.update_line_isSome (j : Item) (wdp : WorkDoneProgress) :
    ((j.update wdp).line).isSome = true := by
  cases wdp <;> rfl

/-- A Provider whose id differs from the message's id is untouched by
`routeMsg`. -/
theorem mem_routeMsg_of_ne (ps : List Provider) (m : FidgetMessage) (q : Provider)
    (hq : q ∈ ps) (hid : q.id ≠ m.id) : q ∈ routeMsg ps m := by
  induction ps with
  | nil => cases hq
  | cons a as ih =>
    simp only [routeMsg]
    by_cases h : a.id = m.id
    · rw [if_pos h]
      rcases List.mem_cons.mp hq with h1 | h1
      · exact absurd (h1 ▸ h) hid
      · exact List.mem_cons_of_mem _ h1
    · rw [if_neg h]
      rcases List.mem_cons.mp hq with h1 | h1
      · exact h1 ▸ List.mem_cons_self _ _
      · exact List.mem_cons_of_mem _ (ih h1)

/-! ## Claim theorems -/

/-- Claim C1 (code evaluated at the failing situation): when the consuming
side has stopped (channel closed, `receiverAlive = false`), every Handle
operation — `Fidget::create`, `Fidget::update`, `Fidget::end_progress` —
panics (`send(..).unwrap()`), instead of reporting a recoverable delivery
failure; with the receiver alive the message is delivered. -/
theorem handle_send_panics_when_channel_closed :
    Fidget.create false 1 (.string "t") = .panicked
    ∧ Fidget.update false 1 (.string "t") (.report (some "m") none) = .panicked
    ∧ Fidget.end_progress false 1 (.string "t") none = .panicked
    ∧ Fidget.create true 1 (.string "t")
        = .sent { id := 1, token := .string "t", progress := .created } := by
  refine ⟨rfl, rfl, rfl, rfl⟩

/-- Claim C2, counterexample: a `Started` event whose token matches no
Item is NOT free of state changes — the eviction step still removes
finished Items. Provider 1 holds one finished Item; an unmatched `Report`
for token "b" leaves the Item collection empty, not identical. -/
theorem started_unmatched_changes_state :
    (Provider.update
        { id := 1,
          state := [{ token := .string "a", title := none, line := some "[a]", finished := true }] }
        (.string "b") (.started (.report none none))).state
      ≠ [{ token := ProgressToken.string "a", title := none, line := some "[a]", finished := true }] := by
  decide

/-- Claim C2 as amended: a `Started` event whose token matches no
unfinished Item is dropped — no Item is created, the provider's id is
unchanged, and the resulting Item collection is exactly the prior
collection with finished Items evicted (the eviction step being the only
state change). -/
theorem started_unmatched_dropped (p : Provider) (token : ProgressToken)
    (wdp : WorkDoneProgress)
    (h : ∀ i ∈ p.state, i.finished = false → i.token ≠ token) :
    (Provider.update p token (.started wdp)).state
        = p.state.filter (fun item => item.finished == false)
    ∧ (Provider.update p token (.started wdp)).id = p.id := by
  constructor
  · show updateMatching (p.state.filter (fun item => item.finished == false)) token wdp
        = p.state.filter (fun item => item.finished == false)
    apply updateMatching_no_match
    intro i hi
    have hmem := List.mem_filter.mp hi
    exact h i hmem.1 (by simpa using hmem.2)
  · rfl

/-- Witness for the amended Claim C2 at a concrete input. -/
theorem started_unmatched_dropped_witness :
    (Provider.update
        { id := 1,
          state := [{ token := .string "a", title := none, line := some "[a]", finished := true }] }
        (.string "b") (.started (.report none none))).state
        = [{ token := ProgressToken.string "a", title := none, line := some "[a]",
             finished := true }].filter (fun item => item.finished == false)
    ∧ (Provider.update
        { id := 1,
          state := [{ token := .string "a", title := none, line := some "[a]", finished := true }] }
        (.string "b") (.started (.report none none))).id = 1 :=
  started_unmatched_dropped
    { id := 1,
      state := [{ token := .string "a", title := none, line := some "[a]", finished := true }] }
    (.string "b") (.report none none) (by decide)

/-- Claim C3: `format_progress` coincides with the §4.5 table on every
token and every combination of present/absent title, message and
percentage; in particular the spec's example (token "t1", title
"Indexing", no message, percentage 42) renders as "[t1] 42% Indexing". -/
theorem format_progress_matches_table (token : ProgressToken)
    (title msg : Option String) (percentage : Option Nat) :
    format_progress token title msg percentage = formatTableSpec token title msg percentage
    ∧ format_progress (.string "t1") (some "Indexing") none (some 42) = "[t1] 42% Indexing" := by
  constructor
  · cases title <;> cases msg <;> cases percentage <;> rfl
  · decide

/-- Claim C4: `Created` handling appends a fresh Item `{token, title:
none, line: none, finished: false}` after the eviction step, regardless of
the prior state — in particular, when an unfinished Item with the same
token is already present, a duplicate is produced (two Items carry token
"a" below) — and no Begin-style field population happens. -/
theorem created_appends_unconditionally (p : Provider) (token : ProgressToken) :
    Provider.update p token .created
        = { id := p.id,
            state := p.state.filter (fun item => item.finished == false)
              ++ [{ token := token, title := none, line := none, finished := false }] }
    ∧ (Provider.update
        { id := 1,
          state := [{ token := .string "a", title := some "T", line := some "[a] T",
                      finished := false }] }
        (.string "a") .created).state.countP (fun i => i.token == .string "a") = 2 := by
  constructor
  · rfl
  · decide

/-- Claim C8: a `Report{message, percentage}` event leaves the Item's
title, finished flag and token unchanged and recomputes only the line,
from the token, the current title and the event's message and
percentage. -/
theorem report_recomputes_only_line (i : Item) (m : Option String) (pct : Option Nat) :
    (i.update (.report m pct)).title = i.title
    ∧ (i.update (.report m pct)).finished = i.finished
    ∧ (i.update (.report m pct)).token = i.token
    ∧ (i.update (.report m pct)).line = some (format_progress i.token i.title m pct) := by
  refine ⟨rfl, rfl, rfl, rfl⟩

/-- Inner render loop: folding the Item push-loop equals appending the
filter-mapped lines. -/
theorem foldl_lines_eq (is : List Item) (acc : List String) :
    is.foldl
      (fun acc item => match item.line with | some line => acc ++ [line] | none => acc) acc
      = acc ++ is.filterMap (fun item => item.line) := by
  induction is generalizing acc with
  | nil => simp
  | cons i is ih =>
    cases h : i.line with
    | none => simp [List.foldl_cons, h, ih, List.filterMap_cons]
    | some line => simp [List.foldl_cons, h, ih, List.filterMap_cons]

/-- Outer render loop: folding the Provider push-loop equals appending the
flat-mapped header/line blocks. -/
theorem foldl_providers_eq (ps : List Provider) (acc : List String) :
    ps.foldl
      (fun acc p =>
        (p.state.reverse.foldl
          (fun acc item => match item.line with | some line => acc ++ [line] | none => acc)
          (acc ++ ["id: " ++ toString p.id]))) acc
      = acc ++ ps.flatMap
          (fun p => ("id: " ++ toString p.id) :: p.state.reverse.filterMap (fun item => item.line)) := by
  induction ps generalizing acc with
  | nil => simp
  | cons p ps ih =>
    simp only [List.foldl_cons]
    rw [foldl_lines_eq, ih, List.flatMap_cons]
    simp [List.append_assoc]

/-- The imperative push-loop of `render` produces exactly the
reverse-order header/line sequence of the spec. -/
theorem renderLines_eq_spec_aux (w : FidgetWidget) :
    w.renderLines = renderLinesSpec w := by
  rw [FidgetWidget.renderLines, renderLinesSpec, foldl_providers_eq]
  simp

/-- When no Provider's id matches, `routeMsg` appends a freshly
constructed and updated Provider. -/
theorem routeMsg_unseen (ps : List Provider) (m : FidgetMessage)
    (h : ∀ p ∈ ps, p.id ≠ m.id) :
    routeMsg ps m = ps ++ [Provider.update { id := m.id, state := [] } m.token m.progress] := by
  induction ps with
  | nil => rfl
  | cons a as ih =>
    simp only [routeMsg]
    rw [if_neg (h a (List.mem_cons_self a as))]
    rw [ih (fun p hp => h p (List.mem_cons_of_mem a hp))]
    rfl

/-- `routeMsg` keeps the Provider id sequence, appending the message's id
exactly when it was unseen. -/
theorem routeMsg_ids (ps : List Provider) (m : FidgetMessage) :
    (routeMsg ps m).map Provider.id
      = if ps.any (fun p => p.id == m.id) then ps.map Provider.id
        else ps.map Provider.id ++ [m.id] := by
  induction ps with
  | nil => simp [routeMsg, Provider.update_id]
  | cons a as ih =>
    by_cases h : a.id = m.id
    · simp [routeMsg, h, Provider.update_id]
    · simp only [routeMsg]
      rw [if_neg h]
      by_cases h2 : as.any (fun p => p.id == m.id)
      · simp [List.map_cons, ih, List.any_cons, h, h2]
      · simp [List.map_cons, ih, List.any_cons, h, h2]

/-- When the message's id is seen, `routeMsg` dispatches the event to the
first Provider with that id — `Provider.update` is applied to it in place
and every other Provider is left untouched. -/
theorem routeMsg_seen (before : List Provider) (p : Provider) (after : List Provider)
    (m : FidgetMessage) (hbefore : ∀ q ∈ before, q.id ≠ m.id) (hp : p.id = m.id) :
    routeMsg (before ++ p :: after) m
      = before ++ Provider.update p m.token m.progress :: after := by
  induction before with
  | nil =>
    simp only [List.nil_append, routeMsg]
    rw [if_pos hp]
  | cons a as ih =>
    simp only [List.cons_append, routeMsg, List.append_eq]
    rw [if_neg (hbefore a (List.mem_cons_self a as))]
    rw [ih (fun q hq => hbefore q (List.mem_cons_of_mem a hq))]

/-- Claim C5: eviction happens exactly as the first step of processing an
event and in no other way — processing is unchanged if the finished Items
are removed beforehand (eviction is the first step), any Item finished
after the call owes its flag to this event being `End` (so none that was
finished before the call survives), and a Provider addressed by no message
is left untouched by the drain (a finished Item with no further events for
its Provider is never removed). -/
theorem finished_evicted_first_and_only
    (p : Provider) (token : ProgressToken) (progress : ProgressStatus)
    (i : Item) (hi : i ∈ (Provider.update p token progress).state)
    (hfin : i.finished = true)
    (ps : List Provider) (q : Provider) (m : FidgetMessage)
    (hq : q ∈ ps) (hid : q.id ≠ m.id) :
    Provider.update p token progress
        = Provider.update
            { id := p.id, state := p.state.filter (fun item => item.finished == false) }
            token progress
    ∧ (∃ msg, progress = .started (.end_ msg))
    ∧ q ∈ routeMsg ps m := by
  refine ⟨?_, ?_, mem_routeMsg_of_ne ps m q hq hid⟩
  · cases progress <;> simp [Provider.update, filter_finished_idem]
  · cases progress with
    | created =>
      exfalso
      simp only [Provider.update] at hi
      rcases List.mem_append.mp hi with h1 | h1
      · have h2 := (List.mem_filter.mp h1).2
        simp [hfin] at h2
      · rcases List.mem_singleton.mp h1 with rfl
        simp at hfin
    | started wdp =>
      simp only [Provider.update] at hi
      rcases mem_updateMatching _ _ _ _ hi with h1 | ⟨j, hj, rfl⟩
      · exfalso
        have h2 := (List.mem_filter.mp h1).2
        simp [hfin] at h2
      · rcases Item.update_finished j wdp hfin with hjf | ⟨msg, rfl⟩
        · exfalso
          have h2 := (List.mem_filter.mp hj).2
          simp [hjf] at h2
        · exact ⟨msg, rfl⟩

/-- Witness for Claim C5 at a concrete input: an `End` event for token "a"
leaves a finished Item, pre-evicting changes nothing, and Provider 2 is
untouched by a message for Provider 1. -/
theorem finished_evicted_first_and_only_witness :
    Provider.update
        { id := 1,
          state := [{ token := .string "a", title := none, line := none, finished := false }] }
        (.string "a") (.started (.end_ none))
      = Provider.update
          { id := 1,
            state := [{ token := ProgressToken.string "a", title := none, line := none,
                        finished := false }].filter (fun item => item.finished == false) }
          (.string "a") (.started (.end_ none))
    ∧ (∃ msg, ProgressStatus.started (.end_ none) = .started (.end_ msg))
    ∧ ({ id := 2, state := [] } : Provider)
        ∈ routeMsg [{ id := 2, state := [] }]
            { id := 1, token := .string "a", progress := .created } :=
  finished_evicted_first_and_only
    { id := 1,
      state := [{ token := .string "a", title := none, line := none, finished := false }] }
    (.string "a") (.started (.end_ none))
    { token := .string "a", title := none, line := some "[a]", finished := true }
    (by decide) rfl
    [{ id := 2, state := [] }] { id := 2, state := [] }
    { id := 1, token := .string "a", progress := .created }
    (by decide) (by decide)

/-- Claim C6: `renderLines` emits, for each Provider in reverse insertion
order, one header line identifying the provider followed by the lines of
its Items in reverse insertion order, skipping Items with no line; in
particular Providers added in order 1, 2, 3 yield headers in order
3, 2, 1. -/
theorem render_reverse_insertion_order (w : FidgetWidget) :
    w.renderLines = renderLinesSpec w
    ∧ FidgetWidget.renderLines
        { active :=
            [{ id := 1,
               state := [{ token := .string "a", title := none, line := some "[a] A",
                           finished := false }] },
             { id := 2,
               state := [{ token := .string "b", title := none, line := some "[b] B",
                           finished := false }] },
             { id := 3,
               state := [{ token := .string "c", title := none, line := some "[c] C",
                           finished := false }] }] }
      = ["id: 3", "[c] C", "id: 2", "[b] B", "id: 1", "[a] A"] :=
  ⟨renderLines_eq_spec_aux w, by decide⟩

/-- Claim C7: a drain with an empty inbox returns immediately with the
widget unchanged; with a pending message it removes exactly that one
message and routes it: when the id is seen, the event is dispatched via
`Provider.update` to the first Provider with that id, every other Provider
untouched (and the id sequence unchanged); when the id is unseen, a new
Provider is created, updated and appended. -/
theorem drain_applies_at_most_one (w : FidgetWidget) (m : FidgetMessage)
    (rest : List FidgetMessage) :
    FidgetWidget.update w [] = (w, [])
    ∧ (FidgetWidget.update w (m :: rest)).2 = rest
    ∧ ((∀ p ∈ w.active, p.id ≠ m.id) →
        (FidgetWidget.update w (m :: rest)).1.active
          = w.active ++ [Provider.update { id := m.id, state := [] } m.token m.progress])
    ∧ (∀ before p after, w.active = before ++ p :: after →
        (∀ q ∈ before, q.id ≠ m.id) → p.id = m.id →
        (FidgetWidget.update w (m :: rest)).1.active
          = before ++ Provider.update p m.token m.progress :: after)
    ∧ (FidgetWidget.update w (m :: rest)).1.active.map Provider.id
        = (if w.active.any (fun p => p.id == m.id) then w.active.map Provider.id
           else w.active.map Provider.id ++ [m.id]) := by
  refine ⟨rfl, rfl, ?_, ?_, ?_⟩
  · intro h
    exact routeMsg_unseen w.active m h
  · intro before p after hsplit hbefore hp
    show routeMsg w.active m = before ++ Provider.update p m.token m.progress :: after
    rw [hsplit]
    exact routeMsg_seen before p after m hbefore hp
  · exact routeMsg_ids w.active m

/-- Witness for Claim C7 at concrete inputs: one provider with id 2 and a
pending message for the unseen id 1 (creation and append), and a widget
holding providers 2 and 1 with a pending `Report` for the seen id 1
(dispatch to the matching provider). -/
theorem drain_applies_at_most_one_witness :
    FidgetWidget.update { active := [{ id := 2, state := [] }] } []
        = ({ active := [{ id := 2, state := [] }] }, [])
    ∧ (FidgetWidget.update { active := [{ id := 2, state := [] }] }
        [{ id := 1, token := .string "t", progress := .created }]).2 = []
    ∧ (FidgetWidget.update { active := [{ id := 2, state := [] }] }
        [{ id := 1, token := .string "t", progress := .created }]).1.active
        = [{ id := 2, state := [] }]
          ++ [Provider.update { id := 1, state := [] } (.string "t") .created]
    ∧ (FidgetWidget.update { active := [{ id := 2, state := [] }] }
        [{ id := 1, token := .string "t", progress := .created }]).1.active.map Provider.id
        = (if ([{ id := 2, state := [] }] : List Provider).any (fun p => p.id == 1)
           then ([{ id := 2, state := [] }] : List Provider).map Provider.id
           else ([{ id := 2, state := [] }] : List Provider).map Provider.id ++ [1])
    ∧ (FidgetWidget.update
        { active :=
            [{ id := 2, state := [] },
             { id := 1,
               state := [{ token := .string "a", title := none, line := none,
                           finished := false }] }] }
        [{ id := 1, token := .string "a",
           progress := .started (.report (some "r") (some 10)) }]).1.active
        = [{ id := 2, state := [] }]
          ++ Provider.update
              { id := 1,
                state := [{ token := .string "a", title := none, line := none,
                            finished := false }] }
              (.string "a") (.started (.report (some "r") (some 10)))
            :: [] :=
  have h := drain_applies_at_most_one { active := [{ id := 2, state := [] }] }
    { id := 1, token := .string "t", progress := .created } []
  have h2 := drain_applies_at_most_one
    { active :=
        [{ id := 2, state := [] },
         { id := 1,
           state := [{ token := .string "a", title := none, line := none,
                       finished := false }] }] }
    { id := 1, token := .string "a", progress := .started (.report (some "r") (some 10)) } []
  ⟨h.1, h.2.1, h.2.2.1 (by decide), h.2.2.2.2,
   h2.2.2.2.1 [{ id := 2, state := [] }]
     { id := 1,
       state := [{ token := .string "a", title := none, line := none, finished := false }] }
     [] rfl (by decide) rfl⟩

/-- `Provider.update` preserves the "finished Items have a line"
invariant. -/
theorem provider_update_inv (p : Provider) (token : ProgressToken)
    (progress : ProgressStatus)
    (h : ∀ i ∈ p.state, i.finished = true → i.line.isSome = true) :
    ∀ i ∈ (Provider.update p token progress).state,
      i.finished = true → i.line.isSome = true := by
  intro i hi hfin
  cases progress with
  | created =>
    simp only [Provider.update] at hi
    rcases List.mem_append.mp hi with h1 | h1
    · exact h i (List.mem_filter.mp h1).1 hfin
    · rcases List.mem_singleton.mp h1 with rfl
      simp at hfin
  | started wdp =>
    simp only [Provider.update] at hi
    rcases mem_updateMatching _ _ _ _ hi with h1 | ⟨j, hj, rfl⟩
    · exact h i (List.mem_filter.mp h1).1 hfin
    · exact Item.update_line_isSome j wdp

/-- `routeMsg` preserves the "finished Items have a line" invariant. -/
theorem routeMsg_inv (ps : List Provider) (m : FidgetMessage)
    (h : ∀ p ∈ ps, ∀ i ∈ p.state, i.finished = true → i.line.isSome = true) :
    ∀ p ∈ routeMsg ps m, ∀ i ∈ p.state, i.finished = true → i.line.isSome = true := by
  induction ps with
  | nil =>
    intro p hp
    simp only [routeMsg] at hp
    rcases List.mem_singleton.mp hp with rfl
    exact provider_update_inv _ _ _ (by intro i hi; cases hi)
  | cons a as ih =>
    intro p hp
    simp only [routeMsg] at hp
    by_cases hcase : a.id = m.id
    · rw [if_pos hcase] at hp
      rcases List.mem_cons.mp hp with rfl | h1
      · exact provider_update_inv a m.token m.progress (h a (List.mem_cons_self a as))
      · exact h p (List.mem_cons_of_mem a h1)
    · rw [if_neg hcase] at hp
      rcases List.mem_cons.mp hp with rfl | h1
      · exact h p (List.mem_cons_self p as)
      · exact ih (fun q hq => h q (List.mem_cons_of_mem a hq)) p h1

/-- The invariant holds in every reachable widget state. -/
theorem reachable_items_inv (w : FidgetWidget) (hw : Reachable w) :
    ∀ p ∈ w.active, ∀ i ∈ p.state, i.finished = true → i.line.isSome = true := by
  induction hw with
  | init =>
    intro p hp
    simp [fidget_and_widget] at hp
  | step w m hw ih => exact routeMsg_inv w.active m ih

/-- Claim C9: in every widget state reachable through the public
operations, every Item with `finished = true` has a present `line` —
`finished` is only ever set inside `Item.update`, whose every branch ends
by setting `line` to a formatted string. -/
theorem finished_item_has_line (w : FidgetWidget) (hw : Reachable w)
    (p : Provider) (hp : p ∈ w.active) (i : Item) (hi : i ∈ p.state)
    (hfin : i.finished = true) : i.line.isSome = true :=
  reachable_items_inv w hw p hp i hi hfin

/-- Witness for Claim C9: the state reached by draining a `Created` and
then an `End` for token "a" holds a finished Item whose line is
present. -/
theorem finished_item_has_line_witness :
    (({ token := ProgressToken.string "a", title := none, line := some "[a]",
        finished := true } : Item).line).isSome = true :=
  finished_item_has_line
    { active :=
        routeMsg
          (routeMsg fidget_and_widget.active
            { id := 1, token := .string "a", progress := .created })
          { id := 1, token := .string "a", progress := .started (.end_ none) } }
    (Reachable.step _ _ (Reachable.step _ _ Reachable.init))
    { id := 1,
      state := [{ token := .string "a", title := none, line := some "[a]", finished := true }] }
    (by decide)
    { token := .string "a", title := none, line := some "[a]", finished := true }
    (by decide) rfl

/-- Membership of an id in the Provider id sequence survives `routeMsg`. -/
theorem id_mem_routeMsg (ps : List Provider) (m : FidgetMessage) (n : Nat)
    (h : n ∈ ps.map Provider.id) : n ∈ (routeMsg ps m).map Provider.id := by
  rw [routeMsg_ids]
  split
  · exact h
  · exact List.mem_append_left _ h

/-- Membership of an id in the Provider id sequence survives any number of
further drained messages. -/
theorem id_mem_applyMsgs (ps : List Provider) (ms : List FidgetMessage) (n : Nat)
    (h : n ∈ ps.map Provider.id) : n ∈ (applyMsgs ps ms).map Provider.id := by
  induction ms generalizing ps with
  | nil => exact h
  | cons m ms ih => exact ih (routeMsg ps m) (id_mem_routeMsg ps m n h)

/-- Every Provider id present in the widget contributes its header line to
the rendered output. -/
theorem header_mem_renderLines (w : FidgetWidget) (n : Nat)
    (h : n ∈ w.active.map Provider.id) :
    ("id: " ++ toString n) ∈ w.renderLines := by
  rw [renderLines_eq_spec_aux]
  rcases List.mem_map.mp h with ⟨p, hp, rfl⟩
  have hp2 : p ∈ w.active.reverse := List.mem_reverse.mpr hp
  unfold renderLinesSpec
  exact List.mem_flatMap.mpr ⟨p, hp2, List.mem_cons_self _ _⟩

/-- Claim C10: a `Started` message for an unseen provider id still creates
an empty Provider and appends it permanently — the token then matches no
Item, so the Provider's state stays empty, and after any number of further
drained messages the render output contains that provider's header
line. -/
theorem started_unseen_creates_provider (w : FidgetWidget) (m : FidgetMessage)
    (wdp : WorkDoneProgress) (ms : List FidgetMessage)
    (hprog : m.progress = .started wdp)
    (hunseen : ∀ p ∈ w.active, p.id ≠ m.id) :
    routeMsg w.active m = w.active ++ [{ id := m.id, state := [] }]
    ∧ ("id: " ++ toString m.id)
        ∈ FidgetWidget.renderLines { active := applyMsgs (routeMsg w.active m) ms } := by
  have h1 : routeMsg w.active m = w.active ++ [{ id := m.id, state := [] }] := by
    rw [routeMsg_unseen w.active m hunseen, hprog]
    rfl
  refine ⟨h1, ?_⟩
  have hid : m.id ∈ (routeMsg w.active m).map Provider.id := by
    rw [h1]
    simp
  exact header_mem_renderLines _ _ (id_mem_applyMsgs _ ms _ hid)

/-- Witness for Claim C10: widget with Provider 2 only, a `Report` message
for the unseen id 5, and one further message for id 7 drained
afterwards. -/
theorem started_unseen_creates_provider_witness :
    routeMsg [{ id := 2, state := [] }]
        { id := 5, token := .string "x", progress := .started (.report none none) }
      = [{ id := 2, state := [] }] ++ [{ id := 5, state := [] }]
    ∧ ("id: " ++ toString 5)
        ∈ FidgetWidget.renderLines
            { active :=
                applyMsgs
                  (routeMsg [{ id := 2, state := [] }]
                    { id := 5, token := .string "x", progress := .started (.report none none) })
                  [{ id := 7, token := .string "y", progress := .created }] } :=
  started_unseen_creates_provider { active := [{ id := 2, state := [] }] }
    { id := 5, token := .string "x", progress := .started (.report none none) }
    (.report none none)
    [{ id := 7, token := .string "y", progress := .created }]
    rfl (by decide)
